import Mathlib

set_option maxRecDepth 100000

/-!
Shallow embedding of the NEURAPIC view-model (`src/App.tsx`).

The embedded pieces are: the view-model state held in the React component
(`uploadedImages`, `userPrompt`, `generatedImage`, `isLoading`, `appState`),
the event handlers `handleImageUpload`, `handleRemoveImage`,
`handleGenerateClick`, `handleReset`, and the pure prompt builder
`createFinalPrompt`.  JavaScript strings are modelled as Lean `String`
(with helpers working on `List Char`), `String.prototype.trim` and the
regex replace `\s\s+ -> " "` are modelled explicitly, and the async parts
(`Promise.all` over the file decodes, the awaited `generateImage` call)
are modelled by passing the outcome of the external operation as data.
-/

/-- UIState of the app: the `appState` React state variable
(idle, photos-selected, generating, results-shown). -/
inductive AppState where
  | idle
  | photosSelected
  | generating
  | resultsShown
deriving DecidableEq, Repr

/-- The `status` field of a `GeneratedImage` (pending, done, or error). -/
inductive ImageStatus where
  | pending
  | done
  | error
deriving DecidableEq, Repr

/-- The `GeneratedImage` interface of `App.tsx`: `status`, optional `url`,
optional `error`. -/
structure GeneratedImage where
  status : ImageStatus
  url : Option String
  error : Option String
deriving DecidableEq, Repr

/-- The view-model state of the `App` component: the five React state
variables that the claims are about. -/
structure ModelState where
  uploadedImages : List String
  userPrompt : String
  generatedImage : Option GeneratedImage
  isLoading : Bool
  appState : AppState
deriving DecidableEq, Repr

/-- Initial state of the component (`useState` initial values). -/
def initState : ModelState :=
  { uploadedImages := []
    userPrompt := ""
    generatedImage := none
    isLoading := false
    appState := AppState.idle }

/-- JavaScript whitespace class `\s` (also the class trimmed by
`String.prototype.trim`): tab, LF, VT, FF, CR, space, NBSP, and the
Unicode space separators, line/paragraph separators, and BOM. -/
def jsWs (c : Char) : Bool :=
  let n := c.toNat
  n == 9 || n == 10 || n == 11 || n == 12 || n == 13 || n == 32 ||
  n == 160 || n == 5760 || (8192 ≤ n && n ≤ 8202) || n == 8232 ||
  n == 8233 || n == 8239 || n == 8287 || n == 12288 || n == 65279

/-- Model of `String.prototype.trim`: drop `\s` characters from both ends. -/
def jsTrim (l : List Char) : List Char :=
  ((l.dropWhile jsWs).reverse.dropWhile jsWs).reverse

/-- String wrapper for `jsTrim`. -/
def jsTrimStr (s : String) : String :=
  String.mk (jsTrim s.data)

/-- Worker for the regex replace of the pattern of two-or-more whitespace
characters by one space (g flag).  The inRun flag
records whether the scanner is inside a whitespace run whose single
replacement space has already been emitted (the `+` of the pattern eats
the rest of the run); outside a run, a whitespace character followed by
another one opens a run, while an isolated whitespace character is kept
as it is. -/
def collapseWsGo (inRun : Bool) : List Char → List Char
  | [] => []
  | c :: rest =>
    if inRun then
      if jsWs c then collapseWsGo true rest
      else c :: collapseWsGo false rest
    else
      if jsWs c then
        match rest with
        | [] => [c]
        | c2 :: _ =>
          if jsWs c2 then ' ' :: collapseWsGo true rest
          else c :: collapseWsGo false rest
      else c :: collapseWsGo false rest

/-- Model of the global regex replace applied to the rules template: every maximal
run of two or more `\s` characters becomes a single space; an isolated
whitespace character is left as it is. -/
def collapseWs (l : List Char) : List Char :=
  collapseWsGo false l

/-- String wrapper for `collapseWs`. -/
def collapseWsStr (s : String) : String :=
  String.mk (collapseWs s.data)

/-- The `baseInstruction` template literal of `createFinalPrompt`. -/
def baseInstruction : String :=
  "**Primary Objective:** Recreate the exact person/people from the uploaded photos in a new, photorealistic image."

/-- The fallback branch of the `userScene` conditional in
`createFinalPrompt` (used when the trimmed user prompt is empty). -/
def fallbackScene : String :=
  "**Scene Description:** Create an interesting and creative photorealistic scene for the person/people in the photo."

/-- The `rules` template literal of `createFinalPrompt`, byte for byte:
a leading newline, each rule line indented by twelve spaces (with two
spaces after each rule number), and a final newline followed by eight
spaces before the closing backtick. -/
def rulesTemplate : String :=
  "\n            **Critical Rules (Non-negotiable):**\n            1.  **Preserve Identity:** You MUST keep the faces of the people identical to the source photos. Do not alter their facial structure, features, or unique likeness. The final image must be of the *same people*.\n            2.  **Photorealistic Output:** The final image must look like a real photograph, not a drawing or digital creation.\n            3.  **Seamless Integration:** The people from the photos must be seamlessly integrated into the described scene with authentic lighting and shadows.\n            4.  **Single Image:** Produce a single, cohesive final image.\n        "

/-- The `userScene` conditional of `createFinalPrompt`: the ternary on
`userPrompt.trim()` choosing the user-text clause when the trimmed prompt
is truthy and the fallback clause otherwise (the empty string is the only
falsy trimmed string). -/
def userScene (userPrompt : String) : String :=
  if jsTrimStr userPrompt ≠ "" then
    "**Scene Description:** " ++ jsTrimStr userPrompt ++ "."
  else fallbackScene

/-- `createFinalPrompt` of `App.tsx`: the template
`base scene rules.replace(re, sp)` joined with single spaces, then
`.trim()`-ed, as a function of the `userPrompt` state it closes over. -/
def createFinalPrompt (userPrompt : String) : String :=
  jsTrimStr (baseInstruction ++ " " ++ userScene userPrompt ++ " " ++ collapseWsStr rulesTemplate)

/-- Model of `Promise.all` over the per-file decode promises in
`handleImageUpload`: resolves with the list of all values when every
promise resolves, rejects with the first rejection otherwise. -/
def promiseAll : List (Except String String) → Except String (List String)
  | [] => Except.ok []
  | Except.error e :: _ => Except.error e
  | Except.ok a :: rest =>
    match promiseAll rest with
    | Except.ok as => Except.ok (a :: as)
    | Except.error e => Except.error e

/-- Result of one `handleImageUpload` invocation: the new view-model state
and whether the `alert(...)` in the `.catch` branch fired. -/
structure UploadOutcome where
  state : ModelState
  alerted : Bool
deriving DecidableEq, Repr

/-- `handleImageUpload` of `App.tsx`, with the batch of per-file
`FileReader` outcomes passed as data: guarded by
`e.target.files.length > 0`; on `Promise.all` success appends the decoded
strings to `uploadedImages`, sets `appState` to photos-selected and
clears `generatedImage`; on rejection alerts and changes nothing. -/
def handleImageUpload (s : ModelState) (batch : List (Except String String)) : UploadOutcome :=
  if 0 < batch.length then
    match promiseAll batch with
    | Except.ok base64Images =>
      ⟨{ s with
          uploadedImages := s.uploadedImages ++ base64Images
          appState := AppState.photosSelected
          generatedImage := none }, false⟩
    | Except.error _ => ⟨s, true⟩
  else ⟨s, false⟩

/-- The filter `prev.filter((_, index) => index !== indexToRemove)` of
`handleRemoveImage`: keep every element whose position differs from the
given (JavaScript number, possibly negative or out of range) index. -/
def removeIdx {α : Type} : List α → Int → List α
  | [], _ => []
  | a :: rest, i =>
    if i = 0 then removeIdx rest (i - 1)
    else a :: removeIdx rest (i - 1)

/-- `handleRemoveImage` of `App.tsx`: filters out the given index and, when
the filtered list is empty, sets `appState` to idle; `generatedImage`,
`userPrompt` and `isLoading` are untouched. -/
def handleRemoveImage (s : ModelState) (indexToRemove : Int) : ModelState :=
  let newImages := removeIdx s.uploadedImages indexToRemove
  { s with
      uploadedImages := newImages
      appState := if newImages.length = 0 then AppState.idle else s.appState }

/-- Outcome of the awaited `generateImage(uploadedImages, prompt)` call:
resolution with a url, or rejection with `some message` when the thrown
value is an `Error` (whose `.message` is used) and `none` otherwise
(the code then falls back to a generic message). -/
inductive GenReply where
  | ok (url : String)
  | fail (err : Option String)
deriving DecidableEq, Repr

/-- The generic fallback used by the `catch` branch of
`handleGenerateClick` when the thrown value is not an `Error`. -/
def genericErrorMsg : String := "An unknown error occurred."

/-- The synchronous prefix of `handleGenerateClick` after its guard: it
sets the loading flag, moves `appState` to generating and installs the
pending `generatedImage`. -/
def generateStart (s : ModelState) : ModelState :=
  { s with
      isLoading := true
      appState := AppState.generating
      generatedImage := some ⟨ImageStatus.pending, none, none⟩ }

/-- The continuation of `handleGenerateClick` that runs when the awaited
call settles: writes `done(url)` or `error(message)` into
`generatedImage`, then clears the loading flag and moves `appState` to
results-shown.
It acts on whatever state is current at that moment. -/
def generateFinish (s : ModelState) (reply : GenReply) : ModelState :=
  match reply with
  | GenReply.ok url =>
    { s with
        generatedImage := some ⟨ImageStatus.done, some url, none⟩
        isLoading := false
        appState := AppState.resultsShown }
  | GenReply.fail err =>
    { s with
        generatedImage := some ⟨ImageStatus.error, none, some (err.getD genericErrorMsg)⟩
        isLoading := false
        appState := AppState.resultsShown }

/-- One full run of `handleGenerateClick` with no interleaving event:
the state right after the synchronous prefix, the arguments passed to the
external `generateImage` collaborator (`none` when it was not called),
and the state after the settled call was processed. -/
structure GenerateRun where
  started : ModelState
  call : Option (List String × String)
  final : ModelState
deriving DecidableEq, Repr

/-- `handleGenerateClick` of `App.tsx` as an atomic run: the
`uploadedImages.length === 0` guard returns early (no state write, no
external call); otherwise the pending state is installed, the collaborator
is called with the current images and the composed prompt, and the settled
outcome is processed. -/
def handleGenerateClick (s : ModelState) (reply : GenReply) : GenerateRun :=
  if s.uploadedImages.length = 0 then ⟨s, none, s⟩
  else
    ⟨generateStart s,
     some (s.uploadedImages, createFinalPrompt s.userPrompt),
     generateFinish (generateStart s) reply⟩

/-- `handleReset` of `App.tsx`: clears images, result, prompt and returns
to idle; note that `isLoading` is not reset. -/
def handleReset (s : ModelState) : ModelState :=
  { s with
      uploadedImages := []
      generatedImage := none
      appState := AppState.idle
      userPrompt := "" }

/-- The collapsed rules block as it appears in every composed prompt:
`collapseWsStr rulesTemplate` with its final space removed by the
trailing `.trim()` of `createFinalPrompt`.  Note that it begins with a
space, so the separating space of the template leaves a double space
before `**Critical`. -/
def rulesFinal : String :=
  " **Critical Rules (Non-negotiable):** 1. **Preserve Identity:** You MUST keep the faces of the people identical to the source photos. Do not alter their facial structure, features, or unique likeness. The final image must be of the *same people*. 2. **Photorealistic Output:** The final image must look like a real photograph, not a drawing or digital creation. 3. **Seamless Integration:** The people from the photos must be seamlessly integrated into the described scene with authentic lighting and shadows. 4. **Single Image:** Produce a single, cohesive final image."

/-- Formalization of the behavior claimed by C2 (spec reading: every run
of whitespace in each of the three clauses is collapsed to a single
space before the clauses are concatenated); the code, by contrast,
collapses only the rules clause. -/
def createFinalPromptSpec (userPrompt : String) : String :=
  jsTrimStr (collapseWsStr baseInstruction ++ " " ++ collapseWsStr (userScene userPrompt) ++ " " ++ collapseWsStr rulesTemplate)

/-- Configuration for the reachability analysis of C7: the view-model
state together with the number of `generateImage` calls in flight. -/
structure Cfg where
  ms : ModelState
  pending : Nat
deriving DecidableEq, Repr

/-- States reachable by the view-model operations with free interleaving:
upload, remove, the synchronous start of a generate call, the settling of
an in-flight call, and reset, in any order (C7 names exactly these
operations).  The start of a generate call with an empty image list is
omitted because it changes nothing. -/
inductive RawReach : Cfg → Prop where
  | init : RawReach ⟨initState, 0⟩
  | upload (c : Cfg) (b : List (Except String String)) :
      RawReach c → RawReach ⟨(handleImageUpload c.ms b).state, c.pending⟩
  | remove (c : Cfg) (i : Int) :
      RawReach c → RawReach ⟨handleRemoveImage c.ms i, c.pending⟩
  | genStart (c : Cfg) :
      RawReach c → c.ms.uploadedImages ≠ [] →
      RawReach ⟨generateStart c.ms, c.pending + 1⟩
  | genResolve (c : Cfg) (r : GenReply) :
      RawReach c → 0 < c.pending →
      RawReach ⟨generateFinish c.ms r, c.pending - 1⟩
  | reset (c : Cfg) :
      RawReach c → RawReach ⟨handleReset c.ms, c.pending⟩

/-- States reachable by the same operations when remove and reset are not
invoked while a generate call is in flight (which is how the presentation
layer drives the handlers: no action is offered in the generating
view). -/
inductive UIReach : Cfg → Prop where
  | init : UIReach ⟨initState, 0⟩
  | upload (c : Cfg) (b : List (Except String String)) :
      UIReach c → UIReach ⟨(handleImageUpload c.ms b).state, c.pending⟩
  | remove (c : Cfg) (i : Int) :
      UIReach c → c.pending = 0 → UIReach ⟨handleRemoveImage c.ms i, c.pending⟩
  | genStart (c : Cfg) :
      UIReach c → c.ms.uploadedImages ≠ [] →
      UIReach ⟨generateStart c.ms, c.pending + 1⟩
  | genResolve (c : Cfg) (r : GenReply) :
      UIReach c → 0 < c.pending →
      UIReach ⟨generateFinish c.ms r, c.pending - 1⟩
  | reset (c : Cfg) :
      UIReach c → c.pending = 0 → UIReach ⟨handleReset c.ms, c.pending⟩

/-- Configuration after uploading one successfully decoded photo. -/
def raceCfg1 : Cfg :=
  ⟨(handleImageUpload initState [Except.ok "data:image/png;base64,AAA"]).state, 0⟩

/-- Configuration after pressing generate (call now in flight). -/
def raceCfg2 : Cfg := ⟨generateStart raceCfg1.ms, raceCfg1.pending + 1⟩

/-- Configuration after pressing reset while the call is in flight. -/
def raceCfg3 : Cfg := ⟨handleReset raceCfg2.ms, raceCfg2.pending⟩

/-- Configuration after the stale in-flight call resolves: the completion
handler still writes results-shown although the image list is empty. -/
def raceCfg4 : Cfg :=
  ⟨generateFinish raceCfg3.ms (GenReply.ok "data:image/jpeg;base64,OUT"), raceCfg3.pending - 1⟩

/-- Configuration after uploading one photo, under the UI discipline. -/
def uiCfg1 : Cfg :=
  ⟨(handleImageUpload initState [Except.ok "data:image/png;base64,AAA"]).state, 0⟩

/-- Configuration after pressing generate, under the UI discipline. -/
def uiCfg2 : Cfg := ⟨generateStart uiCfg1.ms, uiCfg1.pending + 1⟩

/-- Configuration after the call resolves, under the UI discipline. -/
def uiCfg3 : Cfg :=
  ⟨generateFinish uiCfg2.ms (GenReply.ok "data:image/jpeg;base64,OUT"), uiCfg2.pending - 1⟩

/-- Boolean prefix test on character lists (needle first, haystack second). -/
def isPrefixOfB : List Char → List Char → Bool
  | [], _ => true
  | _ :: _, [] => false
  | a :: as, b :: bs => a == b && isPrefixOfB as bs

/-- Boolean substring containment: does the second list contain the first
one as a contiguous segment?  This formalizes what it means for the
composed instruction string to contain a clause or the user text. -/
def containsSeq (needle : List Char) : List Char → Bool
  | [] => isPrefixOfB needle []
  | a :: rest => isPrefixOfB needle (a :: rest) || containsSeq needle rest

/-- If dropping the leading satisfying prefix of `X` yields the non-empty
list `Y`, the same drop on `X ++ R` yields `Y ++ R`. -/
theorem dropWhile_eq_append {α : Type} (p : α → Bool) (X Y R : List α)
    (h : X.dropWhile p = Y) (hY : Y ≠ []) :
    (X ++ R).dropWhile p = Y ++ R := by
  induction X with
  | nil =>
    simp only [List.dropWhile_nil] at h
    exact absurd h.symm hY
  | cons a X ih =>
    cases hpa : p a with
    | true =>
      rw [List.dropWhile_cons_of_pos hpa] at h
      rw [List.cons_append, List.dropWhile_cons_of_pos hpa]
      exact ih h
    | false =>
      rw [List.dropWhile_cons_of_neg (by simp [hpa])] at h
      rw [List.cons_append, List.dropWhile_cons_of_neg (by simp [hpa])]
      rw [← h, List.cons_append]

/-- Evaluating the collapse of the rules template: it is the collapsed
rules block followed by one trailing space (the residue of the final
newline-plus-indentation run). -/
theorem rulesCollapsed_eq : collapseWsStr rulesTemplate = rulesFinal ++ " " := by decide

/-- Trimming the tail of a list that ends with the collapsed rules block
removes exactly its trailing space, whatever comes before. -/
theorem jsTrim_back (Q : List Char) :
    ((Q ++ (rulesFinal.data ++ [' '])).reverse.dropWhile jsWs).reverse = Q ++ rulesFinal.data := by
  rw [List.reverse_append]
  rw [dropWhile_eq_append jsWs ((rulesFinal.data ++ [' ']).reverse) rulesFinal.data.reverse
        Q.reverse (by decide) (by decide)]
  rw [← List.reverse_append, List.reverse_reverse]

/-- The final trim of the composed prompt: with the base instruction in
front and the collapsed rules block at the back it removes exactly the
one trailing space, leaving the middle untouched. -/
theorem jsTrim_compose (M : List Char) :
    jsTrim (baseInstruction.data ++ (M ++ (rulesFinal.data ++ [' ']))) =
      baseInstruction.data ++ M ++ rulesFinal.data := by
  unfold jsTrim
  rw [dropWhile_eq_append jsWs baseInstruction.data baseInstruction.data
        (M ++ (rulesFinal.data ++ [' '])) (by decide) (by decide)]
  rw [show baseInstruction.data ++ (M ++ (rulesFinal.data ++ [' '])) =
        (baseInstruction.data ++ M) ++ (rulesFinal.data ++ [' ']) from by
      simp [List.append_assoc]]
  exact jsTrim_back _

/-- Closed form of `createFinalPrompt`: the base instruction, the scene
clause and the collapsed rules block joined by single spaces; the only
effect of the final trim is the removal of the trailing space. -/
theorem createFinalPrompt_closed (p : String) :
    createFinalPrompt p = baseInstruction ++ " " ++ userScene p ++ " " ++ rulesFinal := by
  unfold createFinalPrompt
  rw [rulesCollapsed_eq]
  apply String.ext
  simp only [jsTrimStr, String.data_append]
  rw [show baseInstruction.data ++ " ".data ++ (userScene p).data ++ " ".data ++
        (rulesFinal.data ++ " ".data) =
        baseInstruction.data ++ ((" ".data ++ (userScene p).data ++ " ".data) ++
          (rulesFinal.data ++ [' '])) from by simp [List.append_assoc]]
  rw [jsTrim_compose]
  simp [List.append_assoc]

/-- A list with the base instruction in front and the collapsed rules
block (without its trailing space) at the back is a fixed point of the
model of trim. -/
theorem jsTrim_fixed (M : List Char) :
    jsTrim (baseInstruction.data ++ (M ++ rulesFinal.data)) =
      baseInstruction.data ++ (M ++ rulesFinal.data) := by
  unfold jsTrim
  rw [dropWhile_eq_append jsWs baseInstruction.data baseInstruction.data
        (M ++ rulesFinal.data) (by decide) (by decide)]
  rw [show baseInstruction.data ++ (M ++ rulesFinal.data) =
        (baseInstruction.data ++ M) ++ rulesFinal.data from by simp [List.append_assoc]]
  rw [List.reverse_append]
  rw [dropWhile_eq_append jsWs rulesFinal.data.reverse rulesFinal.data.reverse
        (baseInstruction.data ++ M).reverse (by decide) (by decide)]
  rw [← List.reverse_append, List.reverse_reverse]

/-- Scene clause selection, empty case. -/
theorem userScene_of_empty (p : String) (h : jsTrimStr p = "") :
    userScene p = fallbackScene := by
  simp [userScene, h]

/-- Scene clause selection, non-empty case: the trimmed user text is
embedded verbatim between the scene label and a period. -/
theorem userScene_of_nonempty (p : String) (h : jsTrimStr p ≠ "") :
    userScene p = "**Scene Description:** " ++ jsTrimStr p ++ "." := by
  simp [userScene, h]

/-- A composed prompt is a fixed point of trim (it starts and ends with
non-whitespace characters). -/
theorem jsTrimStr_createFinalPrompt (p : String) :
    jsTrimStr (createFinalPrompt p) = createFinalPrompt p := by
  rw [createFinalPrompt_closed]
  apply String.ext
  simp only [jsTrimStr, String.data_append]
  rw [show baseInstruction.data ++ " ".data ++ (userScene p).data ++ " ".data ++ rulesFinal.data
        = baseInstruction.data ++ ((" ".data ++ (userScene p).data ++ " ".data) ++ rulesFinal.data)
      from by simp [List.append_assoc]]
  rw [jsTrim_fixed]

/-- When every file in the batch decodes, the modelled `Promise.all`
resolves with the decoded values in batch order. -/
theorem promiseAll_map_ok (imgs : List String) :
    promiseAll (imgs.map Except.ok) = Except.ok imgs := by
  induction imgs with
  | nil => rfl
  | cons a rest ih => simp [promiseAll, ih]

/-- When some file in the batch rejects, the modelled `Promise.all`
rejects. -/
theorem promiseAll_error_of_mem (batch : List (Except String String)) (e : String)
    (h : Except.error e ∈ batch) : ∃ msg, promiseAll batch = Except.error msg := by
  induction batch with
  | nil => cases h
  | cons x rest ih =>
    cases x with
    | error e2 => exact ⟨e2, rfl⟩
    | ok a =>
      have hmem : Except.error e ∈ rest := by
        rcases List.mem_cons.mp h with h1 | h1
        · cases h1
        · exact h1
      obtain ⟨m, hm⟩ := ih hmem
      exact ⟨m, by simp [promiseAll, hm]⟩

/-- The index filter ignores an out-of-range (or negative) index. -/
theorem removeIdx_out {α : Type} (l : List α) (i : Int)
    (h : i < 0 ∨ (l.length : Int) ≤ i) : removeIdx l i = l := by
  induction l generalizing i with
  | nil => rfl
  | cons a rest ih =>
    have hlen : ((a :: rest).length : Int) = (rest.length : Int) + 1 := by
      simp [List.length_cons]
    have hne : i ≠ 0 := by
      rcases h with h1 | h1
      · omega
      · rw [hlen] at h1; omega
    rw [removeIdx, if_neg hne]
    congr 1
    apply ih
    rcases h with h1 | h1
    · left; omega
    · right; rw [hlen] at h1; omega

/-- The index filter removes exactly the addressed element when the index
is in range, keeping the prefix and suffix in order. -/
theorem removeIdx_in {α : Type} (l : List α) (i : Int)
    (h0 : 0 ≤ i) (h1 : i < (l.length : Int)) :
    removeIdx l i = l.take i.toNat ++ l.drop (i.toNat + 1) := by
  induction l generalizing i with
  | nil => simp only [List.length_nil, Nat.cast_zero] at h1; omega
  | cons a rest ih =>
    by_cases hz : i = 0
    · subst hz
      rw [removeIdx, if_pos rfl]
      rw [removeIdx_out rest (0 - 1) (Or.inl (by norm_num))]
      simp
    · rw [removeIdx, if_neg hz]
      have h0m : 0 ≤ i - 1 := by omega
      have h1m : i - 1 < (rest.length : Int) := by
        have : ((a :: rest).length : Int) = (rest.length : Int) + 1 := by simp [List.length_cons]
        omega
      rw [ih (i - 1) h0m h1m]
      have hnat : i.toNat = (i - 1).toNat + 1 := by omega
      rw [hnat]
      simp [List.take_succ_cons, List.drop_succ_cons]

/-- Inductive invariant of the UI-disciplined system: a state whose
UIState is generating or results-shown has a non-empty image list, and so
has any state with a call in flight. -/
theorem uiReach_invariant (c : Cfg) (h : UIReach c) :
    ((c.ms.appState = AppState.generating ∨ c.ms.appState = AppState.resultsShown) →
      c.ms.uploadedImages ≠ []) ∧
    (0 < c.pending → c.ms.uploadedImages ≠ []) := by
  induction h with
  | init => simp [initState]
  | upload c b hc ih =>
    rcases hres : promiseAll b with e | imgs
    · by_cases hb : 0 < b.length
      · simp only [handleImageUpload, if_pos hb, hres]
        exact ih
      · simp only [handleImageUpload, if_neg hb]
        exact ih
    · by_cases hb : 0 < b.length
      · simp only [handleImageUpload, if_pos hb, hres]
        constructor
        · intro hst
          simp at hst
        · intro hp
          have himg := ih.2 hp
          intro habs
          exact himg (List.append_eq_nil.mp habs).1
      · simp only [handleImageUpload, if_neg hb]
        exact ih
  | remove c i hc hp ih =>
    constructor
    · simp only [handleRemoveImage]
      by_cases hlen : (removeIdx c.ms.uploadedImages i).length = 0
      · simp [hlen]
      · simp only [hlen, if_neg]
        intro _
        intro habs
        exact hlen (by simp [habs])
    · intro h0
      rw [hp] at h0
      omega
  | genStart c hc hne ih =>
    constructor
    · intro _
      simpa [generateStart] using hne
    · intro _
      simpa [generateStart] using hne
  | genResolve c r hc hpos ih =>
    have himg := ih.2 hpos
    constructor
    · intro _
      cases r with
      | ok url => simpa [generateFinish] using himg
      | fail err => simpa [generateFinish] using himg
    · intro _
      cases r with
      | ok url => simpa [generateFinish] using himg
      | fail err => simpa [generateFinish] using himg
  | reset c hc hp ih =>
    constructor
    · intro hst
      simp [handleReset] at hst
    · intro h0
      rw [hp] at h0
      omega

/-- The needle is a prefix of itself followed by anything. -/
theorem isPrefixOfB_append (n t : List Char) : isPrefixOfB n (n ++ t) = true := by
  induction n with
  | nil => rfl
  | cons a as ih => simp [isPrefixOfB, ih]

/-- Containment holds when the needle is a prefix of the haystack. -/
theorem containsSeq_of_isPrefixOfB (n l : List Char) (h : isPrefixOfB n l = true) :
    containsSeq n l = true := by
  cases l with
  | nil => exact h
  | cons a rest => simp [containsSeq, h]

/-- Containment is preserved by prepending material to the haystack. -/
theorem containsSeq_append_left (n s l : List Char) (h : containsSeq n l = true) :
    containsSeq n (s ++ l) = true := by
  induction s with
  | nil => exact h
  | cons a s ih => simp [containsSeq, ih]

/-- A haystack of the shape prefix, needle, suffix contains the needle. -/
theorem containsSeq_of_eq (n s t : List Char) :
    containsSeq n (s ++ (n ++ t)) = true :=
  containsSeq_append_left n s (n ++ t)
    (containsSeq_of_isPrefixOfB n (n ++ t) (isPrefixOfB_append n t))

/-- Claim C1: a generation call started with a non-empty image list first
sets the result to pending and UIState to generating; on resolution the
result becomes done(url), on rejection it becomes error(message) carrying
the collaborator message or the generic fallback when none is provided;
in both outcomes UIState becomes results-shown and the loading flag is
cleared, so UIState is never left stuck at generating. -/
theorem claim1_generation_lifecycle (s : ModelState) (reply : GenReply)
    (h : s.uploadedImages ≠ []) :
    (handleGenerateClick s reply).started.generatedImage =
        some ⟨ImageStatus.pending, none, none⟩ ∧
    (handleGenerateClick s reply).started.appState = AppState.generating ∧
    (handleGenerateClick s reply).final.appState = AppState.resultsShown ∧
    (handleGenerateClick s reply).final.isLoading = false ∧
    (∀ url, reply = GenReply.ok url →
      (handleGenerateClick s reply).final.generatedImage =
        some ⟨ImageStatus.done, some url, none⟩) ∧
    (∀ err, reply = GenReply.fail err →
      (handleGenerateClick s reply).final.generatedImage =
        some ⟨ImageStatus.error, none, some (err.getD genericErrorMsg)⟩) := by
  have hlen : ¬ s.uploadedImages.length = 0 := by
    simpa [List.length_eq_zero] using h
  simp only [handleGenerateClick, if_neg hlen]
  refine ⟨rfl, rfl, ?_, ?_, ?_, ?_⟩
  · cases reply <;> rfl
  · cases reply <;> rfl
  · intro url hr; subst hr; rfl
  · intro err hr; subst hr; rfl

/-- Witness for C1: one image, a rejection that is not an Error object,
ending in the generic fallback message. -/
theorem claim1_witness :
    (⟨["img1"], "hi", none, false, AppState.photosSelected⟩ : ModelState).uploadedImages ≠ [] ∧
    (handleGenerateClick ⟨["img1"], "hi", none, false, AppState.photosSelected⟩
        (GenReply.fail none)).final.generatedImage =
      some ⟨ImageStatus.error, none, some "An unknown error occurred."⟩ := by
  refine ⟨by decide, ?_⟩
  have h := claim1_generation_lifecycle
    ⟨["img1"], "hi", none, false, AppState.photosSelected⟩ (GenReply.fail none) (by decide)
  exact h.2.2.2.2.2 none rfl

/-- Claim C2 counterexample: with the user text a(space)(space)b the
composer output differs from the output required by the claim (every run
of whitespace collapsed to a single space before concatenation): the code
collapses only the rules clause, so the double space inside the user text
survives. -/
theorem claim2_counterexample :
    createFinalPrompt "a  b" ≠ createFinalPromptSpec "a  b" := by decide

/-- Claim C2 as amended: the composer collapses whitespace runs only in
the fixed rules clause; the user text is trimmed at its ends but interior
whitespace runs are preserved, the three clauses are joined by single
spaces (which leaves a double space before the collapsed rules clause,
since that clause starts with a space), and the result is end-trimmed. -/
theorem claim2_amended (p : String) :
    createFinalPrompt p = baseInstruction ++ " " ++ userScene p ++ " " ++ rulesFinal :=
  createFinalPrompt_closed p

/-- Claim C3: uploading a batch of files that all decode successfully
appends the decoded entries, in batch order, after the existing entries
(M existing entries keep their positions, the result has M+N entries),
moves UIState to photos-selected and clears any stale generation
result. -/
theorem claim3_upload_appends (s : ModelState) (imgs : List String) (h : imgs ≠ []) :
    (handleImageUpload s (imgs.map Except.ok)).state.uploadedImages
        = s.uploadedImages ++ imgs ∧
    (handleImageUpload s (imgs.map Except.ok)).state.uploadedImages.length
        = s.uploadedImages.length + imgs.length ∧
    (handleImageUpload s (imgs.map Except.ok)).state.appState = AppState.photosSelected ∧
    (handleImageUpload s (imgs.map Except.ok)).state.generatedImage = none := by
  have hb : 0 < (imgs.map Except.ok : List (Except String String)).length := by
    rw [List.length_map]
    exact List.length_pos.mpr h
  simp only [handleImageUpload, if_pos hb, promiseAll_map_ok]
  simp [List.length_append]

/-- Witness for C3: one existing entry, two new ones, appended in order. -/
theorem claim3_witness :
    (["n1", "n2"] : List String) ≠ [] ∧
    (handleImageUpload ⟨["m1"], "", none, false, AppState.photosSelected⟩
        ((["n1", "n2"] : List String).map Except.ok)).state.uploadedImages
      = ["m1", "n1", "n2"] := by
  refine ⟨by decide, ?_⟩
  have h := claim3_upload_appends
    ⟨["m1"], "", none, false, AppState.photosSelected⟩ ["n1", "n2"] (by decide)
  rw [h.1]
  rfl

/-- Claim C4: removing an in-range index from a non-empty image list
yields the list of length L-1 made of the remaining elements in their
original relative order, and removing the last remaining element moves
UIState to idle. -/
theorem claim4_remove_in_range (s : ModelState) (i : Int)
    (h0 : 0 ≤ i) (h1 : i < (s.uploadedImages.length : Int)) :
    (handleRemoveImage s i).uploadedImages.length = s.uploadedImages.length - 1 ∧
    (handleRemoveImage s i).uploadedImages
        = s.uploadedImages.take i.toNat ++ s.uploadedImages.drop (i.toNat + 1) ∧
    (s.uploadedImages.length = 1 → (handleRemoveImage s i).appState = AppState.idle) := by
  have heq := removeIdx_in s.uploadedImages i h0 h1
  have hlt : i.toNat < s.uploadedImages.length := by omega
  have hlen : (removeIdx s.uploadedImages i).length = s.uploadedImages.length - 1 := by
    rw [heq, List.length_append, List.length_take, List.length_drop]
    omega
  refine ⟨?_, ?_, ?_⟩
  · simp only [handleRemoveImage]
    exact hlen
  · simp only [handleRemoveImage]
    exact heq
  · intro hL
    have hz : (removeIdx s.uploadedImages i).length = 0 := by omega
    simp [handleRemoveImage, hz]

/-- Witness for C4: removing the only element of a one-element list moves
UIState to idle. -/
theorem claim4_witness :
    ((0 : Int) ≤ 0 ∧
      (0 : Int) < (((["a"] : List String).length : Int))) ∧
    (handleRemoveImage (⟨["a"], "p", none, false, AppState.photosSelected⟩ : ModelState) 0).appState
      = AppState.idle := by
  refine ⟨⟨by decide, by decide⟩, ?_⟩
  have h := claim4_remove_in_range
    ⟨["a"], "p", none, false, AppState.photosSelected⟩ 0 (by decide) (by decide)
  exact h.2.2 (by decide)

/-- Claim C5 counterexample: a prompt whose trimmed text is non-empty
(the fallback sentence followed by a trailing space) for which the
composed string does not contain the user text verbatim (the trailing
space is trimmed away) yet does contain the fallback clause. -/
theorem claim5_counterexample :
    jsTrimStr "Create an interesting and creative photorealistic scene for the person/people in the photo " ≠ "" ∧
    containsSeq "Create an interesting and creative photorealistic scene for the person/people in the photo ".data
      (createFinalPrompt "Create an interesting and creative photorealistic scene for the person/people in the photo ").data = false ∧
    containsSeq fallbackScene.data
      (createFinalPrompt "Create an interesting and creative photorealistic scene for the person/people in the photo ").data = true := by
  refine ⟨by decide, by decide, by decide⟩

/-- Claim C5 as amended: when the trimmed prompt is empty the scene
clause is the fallback and the composed string contains it; when the
trimmed prompt is non-empty the scene clause embeds the trimmed user text
verbatim (so the composed string contains the trimmed text, and the
fallback is used only through the empty branch, although a user text that
spells out the fallback sentence reproduces it). -/
theorem claim5_amended (p : String) :
    (jsTrimStr p = "" →
      userScene p = fallbackScene ∧
      containsSeq fallbackScene.data (createFinalPrompt p).data = true) ∧
    (jsTrimStr p ≠ "" →
      userScene p = "**Scene Description:** " ++ jsTrimStr p ++ "." ∧
      containsSeq (jsTrimStr p).data (createFinalPrompt p).data = true) := by
  constructor
  · intro h
    refine ⟨userScene_of_empty p h, ?_⟩
    rw [createFinalPrompt_closed, userScene_of_empty p h]
    rw [show (baseInstruction ++ " " ++ fallbackScene ++ " " ++ rulesFinal).data
          = (baseInstruction ++ " ").data ++ (fallbackScene.data ++ (" " ++ rulesFinal).data)
        from by simp [List.append_assoc]]
    exact containsSeq_of_eq _ _ _
  · intro h
    refine ⟨userScene_of_nonempty p h, ?_⟩
    rw [createFinalPrompt_closed, userScene_of_nonempty p h]
    rw [show (baseInstruction ++ " " ++ ("**Scene Description:** " ++ jsTrimStr p ++ ".") ++ " " ++ rulesFinal).data
          = (baseInstruction ++ " " ++ "**Scene Description:** ").data ++
            ((jsTrimStr p).data ++ ("." ++ " " ++ rulesFinal).data)
        from by simp [List.append_assoc]]
    exact containsSeq_of_eq _ _ _

/-- Witness for the amended C5: an already-trimmed non-empty prompt is
contained verbatim in the composed string. -/
theorem claim5_amended_witness :
    jsTrimStr "on a beach at sunset" ≠ "" ∧
    containsSeq "on a beach at sunset".data
      (createFinalPrompt "on a beach at sunset").data = true := by
  have h : jsTrimStr "on a beach at sunset" ≠ "" := by decide
  refine ⟨h, ?_⟩
  have h2 := ((claim5_amended "on a beach at sunset").2 h).2
  rw [(by decide : jsTrimStr "on a beach at sunset" = "on a beach at sunset")] at h2
  exact h2

/-- Claim C6: triggering generate with an empty image list is a no-op:
the view-model state is unchanged in every phase and the external
collaborator is not called. -/
theorem claim6_generate_noop (s : ModelState) (reply : GenReply)
    (h : s.uploadedImages = []) :
    handleGenerateClick s reply = ⟨s, none, s⟩ := by
  simp [handleGenerateClick, h]

/-- Witness for C6 at a concrete empty-image state. -/
theorem claim6_witness :
    (⟨[], "txt", none, false, AppState.idle⟩ : ModelState).uploadedImages = [] ∧
    handleGenerateClick (⟨[], "txt", none, false, AppState.idle⟩ : ModelState) (GenReply.ok "u")
      = ⟨⟨[], "txt", none, false, AppState.idle⟩, none, ⟨[], "txt", none, false, AppState.idle⟩⟩ :=
  ⟨rfl, claim6_generate_noop _ _ rfl⟩

/-- Claim C7 counterexample: under free interleaving of the operations the
claim names (upload, remove, generate, resolve/reject, reset), the state
reached by upload, generate, reset, resolve is results-shown with an
empty image list, because the in-flight call is not cancelled by reset
and its completion handler still writes results-shown. -/
theorem claim7_counterexample :
    RawReach raceCfg4 ∧
    raceCfg4.ms.appState = AppState.resultsShown ∧
    raceCfg4.ms.uploadedImages = [] := by
  refine ⟨?_, by decide, by decide⟩
  exact RawReach.genResolve raceCfg3 (GenReply.ok "data:image/jpeg;base64,OUT")
    (RawReach.reset raceCfg2
      (RawReach.genStart raceCfg1
        (RawReach.upload ⟨initState, 0⟩ [Except.ok "data:image/png;base64,AAA"] RawReach.init)
        (by decide)))
    (by decide)

/-- Claim C7 as amended: in every state reachable when remove and reset
are not invoked while a generation call is in flight (the discipline the
presentation layer enforces, since the generating view offers no
actions), UIState is never generating or results-shown while the image
list is empty. -/
theorem claim7_amended_invariant (c : Cfg) (h : UIReach c)
    (hstate : c.ms.appState = AppState.generating ∨ c.ms.appState = AppState.resultsShown) :
    c.ms.uploadedImages ≠ [] :=
  (uiReach_invariant c h).1 hstate

/-- Witness for the amended C7: a disciplined run upload, generate,
resolve ends results-shown with its image retained. -/
theorem claim7_amended_witness : uiCfg3.ms.uploadedImages ≠ [] := by
  apply claim7_amended_invariant uiCfg3
  · exact UIReach.genResolve uiCfg2 (GenReply.ok "data:image/jpeg;base64,OUT")
      (UIReach.genStart uiCfg1
        (UIReach.upload ⟨initState, 0⟩ [Except.ok "data:image/png;base64,AAA"] UIReach.init)
        (by decide))
      (by decide)
  · exact Or.inr (by decide)

/-- Claim C8: a batch in which at least one file fails to decode is
all-or-nothing: the alert fires, nothing is appended, and the whole
view-model state (images, UIState, generation result) is unchanged. -/
theorem claim8_upload_all_or_nothing (s : ModelState)
    (batch : List (Except String String)) (e : String)
    (h : Except.error e ∈ batch) :
    handleImageUpload s batch = ⟨s, true⟩ := by
  have hb : 0 < batch.length := by
    cases batch with
    | nil => cases h
    | cons x rest => simp
  obtain ⟨m, hm⟩ := promiseAll_error_of_mem batch e h
  simp [handleImageUpload, if_pos hb, hm]

/-- Witness for C8: a two-file batch whose second file fails leaves a
results-shown state with one image completely unchanged and alerts. -/
theorem claim8_witness :
    Except.error "decode failed" ∈
      ([Except.ok "d1", Except.error "decode failed"] : List (Except String String)) ∧
    handleImageUpload
        (⟨["old"], "p", some ⟨ImageStatus.done, some "u", none⟩, false, AppState.resultsShown⟩ : ModelState)
        [Except.ok "d1", Except.error "decode failed"]
      = ⟨⟨["old"], "p", some ⟨ImageStatus.done, some "u", none⟩, false, AppState.resultsShown⟩, true⟩ := by
  have hmem : Except.error "decode failed" ∈
      ([Except.ok "d1", Except.error "decode failed"] : List (Except String String)) :=
    List.Mem.tail _ (List.Mem.head _)
  exact ⟨hmem, claim8_upload_all_or_nothing _ _ "decode failed" hmem⟩

/-- Claim C9 counterexample: re-applying the composer to an
already-composed result changes it (the composed string is re-wrapped as
a new scene clause), so the composer is not idempotent in the
re-application sense, already at the empty prompt. -/
theorem claim9_counterexample :
    createFinalPrompt (createFinalPrompt "") ≠ createFinalPrompt "" := by decide

/-- Claim C9 as amended: the composer is a pure function of the Prompt
value (two calls with the same Prompt produce the same string by
definition), but it is not idempotent under re-application: feeding the
composed string back in always yields a strictly different (longer)
string. -/
theorem claim9_amended (p : String) :
    createFinalPrompt (createFinalPrompt p) ≠ createFinalPrompt p := by
  intro heq
  have hfix := jsTrimStr_createFinalPrompt p
  have hne : jsTrimStr (createFinalPrompt p) ≠ "" := by
    rw [hfix, createFinalPrompt_closed p]
    intro habs
    have hl : (baseInstruction ++ " " ++ userScene p ++ " " ++ rulesFinal).length = 0 := by
      rw [habs]
      rfl
    rw [String.length_append, String.length_append, String.length_append,
      String.length_append] at hl
    have hb : 0 < baseInstruction.length := by decide
    omega
  have hscene := userScene_of_nonempty (createFinalPrompt p) hne
  rw [hfix] at hscene
  have h1 := createFinalPrompt_closed (createFinalPrompt p)
  rw [hscene, heq] at h1
  have hl := congrArg String.length h1
  rw [String.length_append, String.length_append, String.length_append,
    String.length_append, String.length_append, String.length_append] at hl
  have hsp : 0 < " ".length := by decide
  have hbp : 0 < baseInstruction.length := by decide
  omega

/-- Claim C10: the remove operation is total; an out-of-range index
(negative or at least the length) leaves the image list unchanged, and
when the list is non-empty the whole state, UIState included, is exactly
unchanged. -/
theorem claim10_remove_out_of_range (s : ModelState) (i : Int)
    (h : i < 0 ∨ (s.uploadedImages.length : Int) ≤ i) :
    (handleRemoveImage s i).uploadedImages = s.uploadedImages ∧
    (0 < s.uploadedImages.length → handleRemoveImage s i = s) := by
  have heq := removeIdx_out s.uploadedImages i h
  constructor
  · simp [handleRemoveImage, heq]
  · intro hpos
    have hne : ¬ s.uploadedImages.length = 0 := by omega
    simp [handleRemoveImage, heq, hne]

/-- Witness for C10: removing index 5 from a two-element list changes
nothing. -/
theorem claim10_witness :
    ((5 : Int) < 0 ∨ (((["a", "b"] : List String).length : Int) ≤ 5)) ∧
    handleRemoveImage (⟨["a", "b"], "", none, false, AppState.photosSelected⟩ : ModelState) 5
      = ⟨["a", "b"], "", none, false, AppState.photosSelected⟩ := by
  refine ⟨Or.inr (by decide), ?_⟩
  exact (claim10_remove_out_of_range
    ⟨["a", "b"], "", none, false, AppState.photosSelected⟩ 5 (Or.inr (by decide))).2 (by decide)
